import Mathlib

/-!
# Verification of the octopus backend against its specification

Shallow embedding of the parts of the `mathdroid/octopus` Go repository that
the checked claims are about:

* the push-notification dispatch pipeline (`services/push/process_transactions.go`);
* the REST handlers and middleware of `truapi`
  (`services/truapi/truapi/truapi.go`, `handle_flag_story.go`, the invite
  handler and the cookie/session code).

Channel sends (`notifications <- n`) are modelled as the list of notifications
emitted, in program order.  Database accessors, the external amino/JSON codecs
and the `securecookie` library are modelled as abstract inputs (fields of a
service/context record), since their implementations live outside this
repository or outside the provided sources.  Go `time.Time` values are
modelled as Unix seconds (`Int`).
-/

namespace Octopus

/-! ## Data model for the push service (`services/push`) -/

/-- The kinds of notifications emitted by the push service
(`db.Notification*` constants of the `db` package). -/
inductive NotificationType
  | mentionAction
  | newArgument
  | agreeReceived
  | slashed
  | earnedStake
  | jailed
  | notHelpful
  deriving DecidableEq, Repr

/-- Mention kinds (`db.MentionArgument`, `db.MentionComment`). -/
inductive MentionType
  | mentionArgument
  | mentionComment
  deriving DecidableEq, Repr

/-- Modelled from the spec: the string rendering of a mention type
(`MentionType.String()`, defined in the `db` package, which is not among the
provided sources).  Its exact wording is irrelevant to every claim. -/
def MentionType.str : MentionType → String
  | .mentionArgument => "in an argument"
  | .mentionComment => "in a comment"

/-- `db.NotificationMeta`. -/
structure NotificationMeta where
  ClaimID : Option Nat := none
  ArgumentID : Option Nat := none
  MentionTyp : Option MentionType := none
  deriving DecidableEq, Repr

/-- A push notification (the `Notification` struct of the push service).
The Go field `Type` is rendered `Typ` because `Type` is reserved in Lean. -/
structure Notification where
  From : Option String := none
  To : String
  Msg : String
  TypeID : Int
  Typ : NotificationType
  Meta : NotificationMeta := {}
  Action : String
  Trim : Bool := false
  deriving DecidableEq, Repr

/-- `staking.Argument` — the fields the push service reads after decoding the
create-argument event payload.  `Creator` is the account address rendered as
its string form (`argument.Creator.String()`). -/
structure Argument where
  ID : Nat
  Creator : String
  Body : String
  Summary : String
  deriving DecidableEq, Repr

/-- `staking.Stake` — the fields the push service reads after decoding the
create-upvote event payload. -/
structure Stake where
  ArgumentID : Nat
  Creator : String
  deriving DecidableEq, Repr

/-- Result of `s.getClaimParticipantsByArgumentId`: the claim id, the claim
creator address and the participant addresses. -/
structure ClaimParticipants where
  ClaimID : Nat
  Participants : List String
  Creator : String
  deriving DecidableEq, Repr

/-- The claim-argument part of the result of `s.getArgumentSummary`:
claim id, the argument creator address, and the argument summary. -/
structure ClaimArgument where
  ClaimID : Nat
  CreatorAddress : String
  Summary : String
  deriving DecidableEq, Repr

/-- Result of `s.getArgumentSummary`. -/
structure ArgumentSummary where
  ClaimArgument : ClaimArgument
  deriving DecidableEq, Repr

/-- The push `service` state: its database accessors and the mention parser.
These functions live in files of the repository outside the provided sources,
so they are abstract fields here; every claim is quantified over them. -/
structure Service where
  getClaimParticipantsByArgumentId : Int → Except String ClaimParticipants
  getArgumentSummary : Int → Except String ArgumentSummary
  parseCosmosMentions : String → String × List String

/-- Modelled from the spec: the `unique` helper applied to the mentioned
addresses (the "mapping/dedup step" of the dispatch pipeline); the helper is
not among the provided sources.  It removes duplicate addresses. -/
def unique (xs : List String) : List String :=
  xs.dedup

/-- The mention notification built in the first loop of
`processArgumentCreated`. -/
def mentionNotification (argument : Argument) (claimID : Nat) (address : String) : Notification :=
  { From := some argument.Creator
    To := address
    Msg := "mentioned you " ++ MentionType.mentionArgument.str ++ ": " ++ argument.Summary
    TypeID := Int.ofNat argument.ID
    Typ := .mentionAction
    Meta := { ClaimID := some claimID
              ArgumentID := some argument.ID
              MentionTyp := some .mentionArgument }
    Action := "Mentioned you in an argument"
    Trim := true }

/-- The notification sent to the claim creator by `processArgumentCreated`. -/
def claimCreatorNotification (argument : Argument) (cp : ClaimParticipants)
    (meta : NotificationMeta) : Notification :=
  { From := some argument.Creator
    To := cp.Creator
    Msg := "added a new argument on a claim you created: " ++ argument.Summary
    TypeID := Int.ofNat argument.ID
    Typ := .newArgument
    Meta := meta
    Action := "New Argument" }

/-- The notification sent to a claim participant by `processArgumentCreated`. -/
def participantNotification (argument : Argument) (meta : NotificationMeta)
    (p : String) : Notification :=
  { From := some argument.Creator
    To := p
    Msg := "added a new argument on a claim you participated in: " ++ argument.Summary
    TypeID := Int.ofNat argument.ID
    Typ := .newArgument
    Meta := meta
    Action := "New Argument" }

/-- The final loop of `processArgumentCreated`: walk the participants,
skipping any address already in the `notified` set and extending the set as
notifications are sent. -/
def notifyParticipants (argument : Argument) (meta : NotificationMeta)
    (notified : List String) : List String → List Notification
  | [] => []
  | p :: ps =>
    if p ∈ notified then
      notifyParticipants argument meta notified ps
    else
      participantNotification argument meta p ::
        notifyParticipants argument meta (p :: notified) ps

/-- `processArgumentCreated` (services/push/process_transactions.go).
The amino/JSON decoding of the raw event bytes is abstracted as its result
`data : Except String Argument`.  The returned list is the sequence of
notifications sent on the channel, in order; a decode or lookup error sends
nothing.

Note the second block of the source: it tests and records
`notified[creatorAddress]` (the address of the ARGUMENT creator) while the
notification itself is addressed to `claimParticipants.Creator` (the CLAIM
creator), exactly as the source does. -/
def processArgumentCreated (s : Service) (data : Except String Argument) :
    List Notification :=
  match data with
  | .error _ => []
  | .ok argument =>
    match s.getClaimParticipantsByArgumentId (Int.ofNat argument.ID) with
    | .error _ => []
    | .ok claimParticipants =>
      let meta : NotificationMeta :=
        { ClaimID := some claimParticipants.ClaimID
          ArgumentID := some argument.ID }
      let creatorAddress := argument.Creator
      let addresses := unique (s.parseCosmosMentions argument.Body).2
      let mentionNotifs := addresses.map (mentionNotification argument claimParticipants.ClaimID)
      let notified := addresses
      if creatorAddress ≠ claimParticipants.Creator ∧ creatorAddress ∉ notified then
        mentionNotifs ++
          (claimCreatorNotification argument claimParticipants meta ::
            notifyParticipants argument meta (creatorAddress :: notified)
              claimParticipants.Participants)
      else
        mentionNotifs ++
          notifyParticipants argument meta notified claimParticipants.Participants

/-- `processUpvote` (services/push/process_transactions.go), with the codec
and the database lookup abstracted as for `processArgumentCreated`. -/
def processUpvote (s : Service) (data : Except String Stake) : List Notification :=
  match data with
  | .error _ => []
  | .ok stake =>
    match s.getArgumentSummary (Int.ofNat stake.ArgumentID) with
    | .error _ => []
    | .ok argument =>
      [ { From := some stake.Creator
          To := argument.ClaimArgument.CreatorAddress
          Msg := "agreed with your argument: " ++ argument.ClaimArgument.Summary
          TypeID := Int.ofNat stake.ArgumentID
          Typ := .agreeReceived
          Meta := { ClaimID := some argument.ClaimArgument.ClaimID
                    ArgumentID := some stake.ArgumentID }
          Action := "Agree Received" } ]

/-- The punishment types of the external `truchain` slashing module that the
push service distinguishes (`slashing.PunishmentCuratorRewarded`,
`slashing.PunishmentJailed`, and the remaining slashing punishments,
collapsed into one constructor since the code only compares against the two
named ones). -/
inductive PunishmentType
  | punishmentCuratorRewarded
  | punishmentJailed
  | punishmentStakeSlashed
  deriving DecidableEq, Repr

/-- A coin of the external SDK: denomination and amount. -/
structure Coin where
  Denom : String
  Amount : Int
  deriving DecidableEq, Repr

/-- `slashing.PunishmentResult` — the fields `notifySlashes` reads.
`AppAccAddress` is the address rendered as its string form. -/
structure PunishmentResult where
  Typ : PunishmentType
  AppAccAddress : String
  Coin : Coin
  deriving DecidableEq, Repr

/-- Modelled from the spec: `humanReadable`, a helper of the push service not
among the provided sources, renders a coin for display.  Its exact output is
irrelevant to every claim. -/
def humanReadable (c : Coin) : String :=
  toString c.Amount ++ " " ++ c.Denom

/-- Modelled from the spec: `db.CoinDisplayName`, a display constant of the
`db` package not among the provided sources. -/
def CoinDisplayName : String := "TruStake"

/-- The Slashed notification of `notifySlashes`. -/
def slashedNotification (meta : NotificationMeta) (argumentID : Int)
    (minCount : String) (k : String) : Notification :=
  { To := k
    Msg := "You\x27ve been penalized! You\x27ve either wrote an argument that has been marked Not Helpful " ++
      minCount ++ " times or Agreed with an argument marked as Not Helpful " ++
      minCount ++ " times."
    TypeID := argumentID
    Typ := .slashed
    Meta := meta
    Action := "Slashed" }

/-- The earned-stake notification of `notifySlashes`, sent per
curator-rewarded punishment result. -/
def earnedStakeNotification (meta : NotificationMeta) (argumentID : Int)
    (p : PunishmentResult) : Notification :=
  { To := p.AppAccAddress
    Msg := "You just earned " ++ humanReadable p.Coin ++ " " ++ CoinDisplayName ++
      " from an argument you marked as Not Helpful"
    TypeID := argumentID
    Typ := .earnedStake
    Meta := meta
    Action := "Earned " ++ CoinDisplayName }

/-- The jailed notification of `notifySlashes`. -/
def jailedNotification (meta : NotificationMeta) (argumentID : Int)
    (p : PunishmentResult) : Notification :=
  { To := p.AppAccAddress
    Msg := "You\x27ve been slashed too many times and sent to jail. Basic privileges will be stripped."
    TypeID := argumentID
    Typ := .jailed
    Meta := meta
    Action := "Jailed" }

/-- The set of addresses `notifySlashes` collects in its `slashed` map: the
addresses of the punishment results whose type is not
`PunishmentCuratorRewarded`, without duplicates.  Go iterates the map in an
unspecified order; the model fixes the order given by `List.dedup`. -/
def slashedAddresses (punishResults : List PunishmentResult) : List String :=
  ((punishResults.filter
      (fun p => p.Typ ≠ PunishmentType.punishmentCuratorRewarded)).map
    (fun p => p.AppAccAddress)).dedup

/-- The second loop of `notifySlashes`: per punishment result, an earned-stake
notification when curator-rewarded, a jailed notification when jailed. -/
def perResultNotifications (meta : NotificationMeta) (argumentID : Int) :
    List PunishmentResult → List Notification
  | [] => []
  | p :: ps =>
    (if p.Typ = PunishmentType.punishmentCuratorRewarded then
      [earnedStakeNotification meta argumentID p] else []) ++
    (if p.Typ = PunishmentType.punishmentJailed then
      [jailedNotification meta argumentID p] else []) ++
    perResultNotifications meta argumentID ps

/-- `notifySlashes` (services/push/process_transactions.go): one Slashed
notification per distinct non-curator-rewarded address, then the per-result
earned-stake and jailed notifications. -/
def notifySlashes (punishResults : List PunishmentResult)
    (meta : NotificationMeta) (argumentID : Int) (minCount : String) :
    List Notification :=
  (slashedAddresses punishResults).map (slashedNotification meta argumentID minCount) ++
    perResultNotifications meta argumentID punishResults

/-- `types.EventDataTx.Result` as the push service would read it: the tag
key/value pairs, and the decodings of the raw data under the two codecs the
(commented-out) dispatch would apply. -/
structure TxResult where
  Tags : List (String × String)
  DataAsArgument : Except String Argument
  DataAsStake : Except String Stake

/-- `types.EventDataTx`. -/
structure EventDataTx where
  Result : TxResult

/-- `processTxEvent` (services/push/process_transactions.go).  In the source
the entire dispatch — the loop over the result tags and the switch over the
action values create-argument, create-upvote and create-slash — is commented
out; the compiled body only prints the line "in processTxEvent" and sends no
notification, so the model emits the empty list for every event. -/
def processTxEvent (_s : Service) (_evt : EventDataTx) : List Notification :=
  []

/-! ## truapi: responses, cookie auth, middleware and handlers -/

/-- Modelled from the spec: a `chttp.Response` (the `chttp` package is not
among the provided sources) carries the HTTP status code and either an error
message (`SimpleErrorResponse`) or an optional payload (`SimpleResponse`). -/
structure Response where
  Status : Nat
  Err : Option String
  Payload : Option String
  deriving DecidableEq, Repr

/-- Modelled from the spec: `chttp.SimpleErrorResponse(code, err)`. -/
def SimpleErrorResponse (code : Nat) (err : String) : Response :=
  { Status := code, Err := some err, Payload := none }

/-- Modelled from the spec: `chttp.SimpleResponse(code, body)`. -/
def SimpleResponse (code : Nat) (body : Option String) : Response :=
  { Status := code, Err := none, Payload := body }

/-- `Err401NotAuthenticated` of the truapi package (declared outside the
provided sources); only its identity matters. -/
def Err401NotAuthenticated : String := "Not authenticated"

/-- `Err404ResourceNotFound` of the truapi package (declared outside the
provided sources); only its identity matters. -/
def Err404ResourceNotFound : String := "Resource not found"

/-- `cookies.AuthenticatedUser`: the data inside the encrypted tru-user
cookie.  `AuthenticatedAt` is a Unix timestamp in seconds. -/
structure AuthenticatedUser where
  ID : Int
  Address : String
  AuthenticatedAt : Int
  deriving DecidableEq, Repr

/-- `cookies.AuthenticatedSessionDuration` = 30 days, in seconds (Go stores
it as a `time.Duration`; the model works in seconds throughout). -/
def AuthenticatedSessionDuration : Int := 30 * 24 * 60 * 60

/-- `cookies.isStale`: the cookie is stale when its authentication instant
lies before `now` minus the session duration. -/
def isStale (now : Int) (user : AuthenticatedUser) : Bool :=
  user.AuthenticatedAt < now - AuthenticatedSessionDuration

/-- The API context as the cookie code uses it.  `secureCookie` abstracts
`getSecureCookieInstance` (which fails when the configured hex keys do not
decode) together with the external `securecookie` decoder: on success it
yields the function decoding a cookie value into an `AuthenticatedUser`. -/
structure APIContext where
  secureCookie : Except String (String → Except String AuthenticatedUser)

/-- An HTTP request as the modelled handlers read it: the method, the value
of the tru-user cookie when present, the body, and the user slot of the
request context (`userContextKey`). -/
structure Request where
  Method : String
  TruUserCookie : Option String
  Body : String
  CtxUser : Option AuthenticatedUser

/-- `cookies.GetAuthenticatedUser`: read the tru-user cookie, decode it, and
reject legacy cookies carrying user ID 0 as well as stale cookies. -/
def GetAuthenticatedUser (apiCtx : APIContext) (now : Int) (r : Request) :
    Except String AuthenticatedUser :=
  match r.TruUserCookie with
  | none => .error "named cookie not present"
  | some value =>
    match apiCtx.secureCookie with
    | .error e => .error e
    | .ok decode =>
      match decode value with
      | .error e => .error e
      | .ok user =>
        if user.ID = 0 then .error "Legacy twitter auth cookie found"
        else if isStale now user then .error "Stale cookie found"
        else .ok user

/-- `WithUser` (services/truapi/truapi/truapi.go): when cookie authentication
fails the wrapped handler receives the request unchanged; when it succeeds
the handler receives the request with the user stored in its context.  The
middleware writes nothing itself. -/
def WithUser (apiCtx : APIContext) (now : Int) (h : Request → Response)
    (r : Request) : Response :=
  match GetAuthenticatedUser apiCtx now r with
  | .error _ => h r
  | .ok auth => h { r with CtxUser := some auth }

/-! ### HandleFlagStory -/

/-- `FlagStoryRequest` (handle_flag_story.go). -/
structure FlagStoryRequest where
  StoryID : Int
  deriving DecidableEq, Repr

/-- `db.FlaggedStory` — the fields `HandleFlagStory` fills.  `CreatedOn` is a
Unix timestamp in seconds. -/
structure FlaggedStory where
  StoryID : Int
  Creator : String
  CreatedOn : Int
  deriving DecidableEq, Repr

/-- Modelled from the spec: `DBClient.UpsertFlaggedStory` (the `db` package
implementation is not among the provided sources) persists the flagged story,
or fails leaving the store unchanged.  The Boolean input abstracts whether
the database errors. -/
def UpsertFlaggedStory (dbFails : Bool) (store : List FlaggedStory)
    (fs : FlaggedStory) : Except String (List FlaggedStory) :=
  if dbFails then .error "db error" else .ok (store ++ [fs])

/-- `HandleFlagStory` (services/truapi/truapi/handle_flag_story.go).  The
JSON decoding of the request body is abstracted as its result `dec`; the
handler returns the response together with the flagged-stories store it
leaves behind. -/
def HandleFlagStory (dec : Except String FlagStoryRequest)
    (ctxUser : Option AuthenticatedUser) (dbFails : Bool) (now : Int)
    (store : List FlaggedStory) : Response × List FlaggedStory :=
  match dec with
  | .error e => (SimpleErrorResponse 400 e, store)
  | .ok request =>
    match ctxUser with
    | none => (SimpleErrorResponse 401 Err401NotAuthenticated, store)
    | some user =>
      let flaggedStory : FlaggedStory :=
        { StoryID := request.StoryID, Creator := user.Address, CreatedOn := now }
      match UpsertFlaggedStory dbFails store flaggedStory with
      | .error e => (SimpleErrorResponse 400 e, store)
      | .ok store2 => (SimpleResponse 200 none, store2)

/-! ### HandleInvite -/

/-- `AddInviteRequest`. -/
structure AddInviteRequest where
  Email : String
  deriving DecidableEq, Repr

/-- `db.Invite` — the fields `handleCreateInvite` fills and reads. -/
structure Invite where
  ID : Int
  Creator : String
  FriendEmail : String
  deriving DecidableEq, Repr

/-- `strings.ToLower` as the invite handler applies it: lower-case the email
character by character.  Written over the character list so the kernel can
evaluate it on concrete emails. -/
def toLower (s : String) : String :=
  String.mk (s.data.map Char.toLower)

/-- Modelled from the spec: `DBClient.AddInvite` (the `db` package
implementation is not among the provided sources).  On success the ORM
assigns the invite its row ID; for an already-invited address the insert is
skipped and the ID stays `0`; on error the store is unchanged.  The
`outcome` input abstracts the behaviour of the database: an error, or the
assigned ID (`0` meaning the duplicate case). -/
def AddInvite (outcome : Except String Int) (store : List Invite)
    (invite : Invite) : Except String (Invite × List Invite) :=
  match outcome with
  | .error e => .error e
  | .ok id =>
    let inv := { invite with ID := id }
    .ok (inv, if id = 0 then store else store ++ [inv])

/-- Modelled from the spec: `json.Marshal` of an invite, which never fails
for this struct; the rendering is irrelevant to every claim. -/
def marshalInvite (i : Invite) : String :=
  toString i.ID ++ ":" ++ i.Creator ++ ":" ++ i.FriendEmail

/-- `handleCreateInvite` (the invite handler file).  `validEmail` abstracts
`regex.RegexValidEmail.MatchString` (the regex source file is not among the
provided sources); `dec` is the result of decoding the body; `outcome`
abstracts the database as in `AddInvite`. -/
def handleCreateInvite (validEmail : String → Bool)
    (dec : Except String AddInviteRequest)
    (ctxUser : Option AuthenticatedUser) (outcome : Except String Int)
    (store : List Invite) : Response × List Invite :=
  match dec with
  | .error e => (SimpleErrorResponse 400 e, store)
  | .ok request =>
    let email := toLower request.Email
    if validEmail email = false then
      (SimpleErrorResponse 422 "Invalid email address", store)
    else
      match ctxUser with
      | none => (SimpleErrorResponse 401 Err401NotAuthenticated, store)
      | some user =>
        match AddInvite outcome store
            { ID := 0, Creator := user.Address, FriendEmail := email } with
        | .error e => (SimpleErrorResponse 500 e, store)
        | .ok (invite, store2) =>
          if invite.ID = 0 then
            (SimpleErrorResponse 422 "This user has already been invited", store2)
          else
            (SimpleResponse 200 (some (marshalInvite invite)), store2)

/-- `HandleInvite`: POST goes to `handleCreateInvite`, every other method
gets a 404 resource-not-found response. -/
def HandleInvite (validEmail : String → Bool) (method : String)
    (dec : Except String AddInviteRequest)
    (ctxUser : Option AuthenticatedUser) (outcome : Except String Int)
    (store : List Invite) : Response × List Invite :=
  if method = "POST" then
    handleCreateInvite validEmail dec ctxUser outcome store
  else
    (SimpleErrorResponse 404 Err404ResourceNotFound, store)

/-! ### RegisterRoutes -/

/-- The paths `RegisterRoutes` (services/truapi/truapi/truapi.go) registers
on the `/api/v1` subrouter, in source order; `/mock_register` is added only
when mock registration is configured. -/
def apiV1Routes (mockRegistration : Bool) : List String :=
  ["/ping", "/graphql", "/presigned", "/unsigned", "/register", "/user",
   "/user/search", "/notification", "/deviceToken", "/deviceToken/unregister",
   "/upload", "/flagStory", "/comments", "/invite", "/reactions",
   "/mentions/translateToCosmos", "/metrics", "/track/"] ++
  (if mockRegistration then ["/mock_register"] else [])

/-! ## Theorems -/

/-- C3: HandleFlagStory returns 400 when the body fails to decode, 401 when
the context holds no authenticated user, 400 when persisting fails, and 200
otherwise; only 200 responses change the flagged-stories store. -/
theorem HandleFlagStory_error_mapping (dec : Except String FlagStoryRequest)
    (ctxUser : Option AuthenticatedUser) (dbFails : Bool) (now : Int)
    (store : List FlaggedStory) :
    (HandleFlagStory dec ctxUser dbFails now store).1.Status =
      (match dec, ctxUser with
       | .error _, _ => 400
       | .ok _, none => 401
       | .ok _, some _ => if dbFails then 400 else 200) ∧
    ((HandleFlagStory dec ctxUser dbFails now store).1.Status = 200 ∨
      (HandleFlagStory dec ctxUser dbFails now store).2 = store) := by
  cases dec <;> cases ctxUser <;> cases dbFails <;>
    simp [HandleFlagStory, UpsertFlaggedStory, SimpleErrorResponse, SimpleResponse]

/-- C4: handleCreateInvite returns 422 for an email whose lowercased form
fails the validity test, and this check comes before the authentication
check (so an unauthenticated request with an invalid email gets 422, not
401); a valid email with no authenticated user gets 401; a persistence error
gets 500; an invite whose ID remains 0 after insertion gets 422; otherwise
200. -/
theorem handleCreateInvite_error_mapping (validEmail : String → Bool)
    (dec : Except String AddInviteRequest) (ctxUser : Option AuthenticatedUser)
    (outcome : Except String Int) (store : List Invite) :
    (handleCreateInvite validEmail dec ctxUser outcome store).1.Status =
      (match dec with
       | .error _ => 400
       | .ok request =>
         if validEmail (toLower request.Email) = false then 422
         else
           match ctxUser with
           | none => 401
           | some _ =>
             match outcome with
             | .error _ => 500
             | .ok id => if id = 0 then 422 else 200) := by
  cases dec with
  | error e => rfl
  | ok request =>
    cases hv : validEmail (toLower request.Email) <;>
      cases ctxUser <;> rcases outcome with e | id <;>
      simp [handleCreateInvite, AddInvite, SimpleErrorResponse, SimpleResponse, hv] <;>
      by_cases hid : id = 0 <;> simp [hid]

/-- C6: RegisterRoutes registers, under the /api/v1 subrouter, a route for
each endpoint the spec lists: ping, graphql, presigned upload URLs,
registration, notifications, invites, reactions, flagging and metrics —
whether or not mock registration is configured. -/
theorem apiV1Routes_cover_spec_endpoints (mockRegistration : Bool) :
    (["/ping", "/graphql", "/presigned", "/register", "/notification",
      "/invite", "/reactions", "/flagStory", "/metrics"].all
      (fun p => (apiV1Routes mockRegistration).contains p)) = true := by
  cases mockRegistration <;> decide

/-- C7: for every request whose method is not POST, HandleInvite returns the
404 resource-not-found response and leaves the invite store untouched. -/
theorem HandleInvite_non_post_404 (validEmail : String → Bool) (method : String)
    (dec : Except String AddInviteRequest) (ctxUser : Option AuthenticatedUser)
    (outcome : Except String Int) (store : List Invite)
    (hm : method ≠ "POST") :
    HandleInvite validEmail method dec ctxUser outcome store =
      (SimpleErrorResponse 404 Err404ResourceNotFound, store) := by
  simp [HandleInvite, hm]

/-- Witness for C7 at the concrete method GET. -/
theorem HandleInvite_non_post_404_witness :
    ("GET" : String) ≠ "POST" ∧
    HandleInvite (fun _ => true) "GET" (.ok { Email := "a@b.com" }) none (.ok 1) [] =
      (SimpleErrorResponse 404 Err404ResourceNotFound, []) :=
  ⟨by decide,
   HandleInvite_non_post_404 (fun _ => true) "GET" (.ok { Email := "a@b.com" })
     none (.ok 1) [] (by decide)⟩

/-- C8: WithUser never rejects a request: whatever cookie authentication
does, the response is the wrapped handler applied to a request that differs
from the original at most in its context user slot, which holds the
authenticated user exactly when authentication succeeded; on failure the
handler receives the request unchanged.  WithUser itself writes nothing. -/
theorem WithUser_always_invokes_handler (apiCtx : APIContext) (now : Int)
    (handler : Request → Response) (r : Request) :
    ∃ r2 : Request, WithUser apiCtx now handler r = handler r2 ∧
      r2.Method = r.Method ∧ r2.TruUserCookie = r.TruUserCookie ∧
      r2.Body = r.Body ∧
      (r2.CtxUser = match GetAuthenticatedUser apiCtx now r with
        | .error _ => r.CtxUser
        | .ok u => some u) ∧
      ((∃ u, GetAuthenticatedUser apiCtx now r = .ok u) ∨ r2 = r) := by
  cases hg : GetAuthenticatedUser apiCtx now r with
  | error e => exact ⟨r, by simp [WithUser, hg]⟩
  | ok u =>
    refine ⟨{ r with CtxUser := some u }, ?_, rfl, rfl, rfl, by simp [hg], .inl ⟨u, rfl⟩⟩
    simp [WithUser, hg]

/-- C5: GetAuthenticatedUser returns an authenticated user exactly when the
tru-user cookie is present, the secure-cookie instance is available, the
value decodes, the decoded ID is nonzero and the authentication instant lies
within the last AuthenticatedSessionDuration (30 days); in every other case
the result is an error carrying no user. -/
theorem GetAuthenticatedUser_ok_iff (apiCtx : APIContext) (now : Int)
    (r : Request) (u : AuthenticatedUser) :
    GetAuthenticatedUser apiCtx now r = .ok u ↔
      ∃ value decode, r.TruUserCookie = some value ∧
        apiCtx.secureCookie = .ok decode ∧ decode value = .ok u ∧
        u.ID ≠ 0 ∧ now - AuthenticatedSessionDuration ≤ u.AuthenticatedAt := by
  cases hc : r.TruUserCookie with
  | none => simp [GetAuthenticatedUser, hc]
  | some value =>
    cases hsc : apiCtx.secureCookie with
    | error e => simp [GetAuthenticatedUser, hc, hsc]
    | ok decode =>
      cases hd : decode value with
      | error e => simp [GetAuthenticatedUser, hc, hsc, hd]
      | ok u2 =>
        by_cases hid : u2.ID = 0
        · have hG : GetAuthenticatedUser apiCtx now r =
              Except.error "Legacy twitter auth cookie found" := by
            simp [GetAuthenticatedUser, hc, hsc, hd, hid]
          rw [hG]
          constructor
          · intro h; exact absurd h (by simp)
          · rintro ⟨v, d, hv, hdec, hdv, hne, _⟩
            rw [Option.some_inj] at hv
            rw [hv] at hd
            cases hdec
            rw [hd] at hdv
            cases hdv
            exact absurd hid hne
        · by_cases hst : isStale now u2
          · have hG : GetAuthenticatedUser apiCtx now r =
                Except.error "Stale cookie found" := by
              simp [GetAuthenticatedUser, hc, hsc, hd, hid, hst]
            rw [hG]
            constructor
            · intro h; exact absurd h (by simp)
            · rintro ⟨v, d, hv, hdec, hdv, _, hfresh⟩
              rw [Option.some_inj] at hv
              rw [hv] at hd
              cases hdec
              rw [hd] at hdv
              cases hdv
              simp only [isStale, decide_eq_true_eq] at hst
              omega
          · have hG : GetAuthenticatedUser apiCtx now r = Except.ok u2 := by
              simp [GetAuthenticatedUser, hc, hsc, hd, hid, hst]
            rw [hG]
            constructor
            · intro h
              have hu : u2 = u := by injection h
              subst hu
              refine ⟨value, decode, rfl, rfl, hd, hid, ?_⟩
              simp only [isStale, decide_eq_true_eq, not_lt] at hst
              omega
            · rintro ⟨v, d, hv, hdec, hdv, _, _⟩
              rw [Option.some_inj] at hv
              rw [hv] at hd
              cases hdec
              rw [hd] at hdv
              cases hdv
              rfl

/-- C10: every invite the handler adds to the store carries, as FriendEmail,
the lowercased form of the email of the decoded request. -/
theorem handleCreateInvite_normalizes_email (validEmail : String → Bool)
    (dec : Except String AddInviteRequest) (ctxUser : Option AuthenticatedUser)
    (outcome : Except String Int) (store : List Invite) (inv : Invite)
    (hmem : inv ∈ (handleCreateInvite validEmail dec ctxUser outcome store).2)
    (hnew : inv ∉ store) :
    ∃ request, dec = .ok request ∧ inv.FriendEmail = toLower request.Email := by
  cases dec with
  | error e => exact absurd hmem (by simpa [handleCreateInvite] using hnew)
  | ok request =>
    refine ⟨request, rfl, ?_⟩
    by_cases hv : validEmail (toLower request.Email) = false
    · exact absurd hmem (by simpa [handleCreateInvite, hv] using hnew)
    · cases ctxUser with
      | none => exact absurd hmem (by simpa [handleCreateInvite, hv] using hnew)
      | some user =>
        cases outcome with
        | error e => exact absurd hmem (by simpa [handleCreateInvite, hv, AddInvite] using hnew)
        | ok id =>
          by_cases hid : id = 0
          · exact absurd hmem (by simpa [handleCreateInvite, hv, AddInvite, hid] using hnew)
          · have : inv ∈ store ++
                [{ ID := id, Creator := user.Address,
                   FriendEmail := toLower request.Email : Invite }] := by
              simpa [handleCreateInvite, hv, AddInvite, hid] using hmem
            rcases List.mem_append.1 this with h | h
            · exact absurd h hnew
            · rcases List.mem_singleton.1 h with rfl
              rfl

/-- The invite the C10 witness inspects: the row the model stores for the
concrete run below. -/
def inviteW : Invite :=
  { ID := 5, Creator := "addr", FriendEmail := "ab@x.com" }

/-- Witness for C10 at a concrete run: email Ab@X.com, an authenticated
user, and a database assigning row ID 5. -/
theorem handleCreateInvite_normalizes_email_witness :
    inviteW ∈ (handleCreateInvite (fun _ => true)
        (.ok { Email := "Ab@X.com" })
        (some { ID := 1, Address := "addr", AuthenticatedAt := 0 })
        (.ok 5) []).2 ∧
    inviteW ∉ ([] : List Invite) ∧
    ∃ request, (Except.ok { Email := "Ab@X.com" } :
        Except String AddInviteRequest) = .ok request ∧
      inviteW.FriendEmail = toLower request.Email :=
  ⟨by decide, by decide,
   handleCreateInvite_normalizes_email (fun _ => true)
     (.ok { Email := "Ab@X.com" })
     (some { ID := 1, Address := "addr", AuthenticatedAt := 0 })
     (.ok 5) [] inviteW (by decide) (by decide)⟩

/-- Filtering the Slashed notifications addressed to `addr` out of the
per-address block of `notifySlashes` counts the occurrences of `addr` among
the collected addresses. -/
theorem filter_slashed_map (meta : NotificationMeta) (aid : Int) (mc : String)
    (addr : String) (ks : List String) :
    ((ks.map (slashedNotification meta aid mc)).filter
        (fun n => n.To == addr && n.Typ == NotificationType.slashed)).length
      = ks.count addr := by
  induction ks with
  | nil => rfl
  | cons k ks ih =>
    by_cases hk : k = addr
    · subst hk
      simp [slashedNotification, List.count_cons, ih]
    · simp [slashedNotification, List.count_cons, hk, ih]

/-- The per-result block of `notifySlashes` contains no Slashed
notification. -/
theorem filter_slashed_perResult (meta : NotificationMeta) (aid : Int)
    (addr : String) (prs : List PunishmentResult) :
    (perResultNotifications meta aid prs).filter
        (fun n => n.To == addr && n.Typ == NotificationType.slashed) = [] := by
  induction prs with
  | nil => rfl
  | cons p ps ih =>
    cases hpt : p.Typ <;>
      simp [perResultNotifications, earnedStakeNotification, jailedNotification, hpt, ih]

/-- The per-address block of `notifySlashes` contains no earned-stake
notification. -/
theorem filter_earned_map (meta : NotificationMeta) (aid : Int) (mc : String)
    (addr : String) (ks : List String) :
    (ks.map (slashedNotification meta aid mc)).filter
        (fun n => n.To == addr && n.Typ == NotificationType.earnedStake) = [] := by
  induction ks with
  | nil => rfl
  | cons k ks ih => simp [slashedNotification, ih]

/-- The per-result block of `notifySlashes` holds one earned-stake
notification to `addr` per curator-rewarded punishment result carrying that
address. -/
theorem filter_earned_perResult (meta : NotificationMeta) (aid : Int)
    (addr : String) (prs : List PunishmentResult) :
    ((perResultNotifications meta aid prs).filter
        (fun n => n.To == addr && n.Typ == NotificationType.earnedStake)).length
      = (prs.filter (fun p => p.AppAccAddress == addr &&
          p.Typ == PunishmentType.punishmentCuratorRewarded)).length := by
  induction prs with
  | nil => rfl
  | cons p ps ih =>
    cases hpt : p.Typ <;> by_cases ha : p.AppAccAddress = addr <;>
      simp [perResultNotifications, earnedStakeNotification, jailedNotification,
        hpt, ha, ih]

/-- C9: in `notifySlashes`, an address receives exactly one Slashed
notification when some punishment result carries it with a type other than
curator-rewarded — no matter in how many results it appears — and none
otherwise; and it receives one earned-stake notification per
curator-rewarded result carrying it. -/
theorem notifySlashes_per_address (prs : List PunishmentResult)
    (meta : NotificationMeta) (argumentID : Int) (minCount : String)
    (addr : String) :
    ((notifySlashes prs meta argumentID minCount).filter
        (fun n => n.To == addr && n.Typ == NotificationType.slashed)).length
      = (if ∃ p ∈ prs, p.AppAccAddress = addr ∧
            p.Typ ≠ PunishmentType.punishmentCuratorRewarded then 1 else 0) ∧
    ((notifySlashes prs meta argumentID minCount).filter
        (fun n => n.To == addr && n.Typ == NotificationType.earnedStake)).length
      = (prs.filter (fun p => p.AppAccAddress == addr &&
          p.Typ == PunishmentType.punishmentCuratorRewarded)).length := by
  constructor
  · rw [notifySlashes, List.filter_append, List.length_append,
      filter_slashed_perResult, filter_slashed_map]
    rw [slashedAddresses, List.count_dedup]
    have hiff : (addr ∈ (prs.filter
          (fun p => p.Typ ≠ PunishmentType.punishmentCuratorRewarded)).map
          (fun p => p.AppAccAddress)) ↔
        (∃ p ∈ prs, p.AppAccAddress = addr ∧
          p.Typ ≠ PunishmentType.punishmentCuratorRewarded) := by
      simp only [List.mem_map, List.mem_filter, decide_eq_true_eq]
      constructor
      · rintro ⟨p, ⟨hp, ht⟩, ha⟩; exact ⟨p, hp, ha, ht⟩
      · rintro ⟨p, hp, ha, ht⟩; exact ⟨p, ⟨hp, ht⟩, ha⟩
    simp only [List.length_nil, Nat.add_zero]
    exact if_congr hiff rfl rfl
  · rw [notifySlashes, List.filter_append, List.length_append, filter_earned_map,
      filter_earned_perResult]
    simp

/-- A concrete push-service state for the create-argument run below: the
argument belongs to claim 1 created by address B with no other participants,
and the argument body mentions address B. -/
def serviceC1 : Service :=
  { getClaimParticipantsByArgumentId := fun _ =>
      .ok { ClaimID := 1, Participants := [], Creator := "B" }
    getArgumentSummary := fun _ => .error "unused"
    parseCosmosMentions := fun body => (body, ["B"]) }

/-- The decoded create-argument payload for that run: argument 7 written by
address A. -/
def argumentC1 : Argument :=
  { ID := 7, Creator := "A", Body := "a point, @B", Summary := "a point" }

/-- C1 fails on the code: when the claim creator B is mentioned in an
argument written by A, processArgumentCreated sends B the mention
notification AND the new-argument notification, because the dedup guard
tests and records the address of the argument creator A instead of the
recipient B.  The run sends exactly two notifications, both addressed
to B. -/
theorem processArgumentCreated_notifies_mentioned_claim_creator_twice :
    (processArgumentCreated serviceC1 (.ok argumentC1)).map
        (fun n => n.To) = ["B", "B"] := by
  decide

/-- A concrete push-service state for the transaction-event run below. -/
def serviceC2 : Service :=
  { getClaimParticipantsByArgumentId := fun _ => .error "unused"
    getArgumentSummary := fun _ =>
      .ok { ClaimArgument := { ClaimID := 2, CreatorAddress := "D", Summary := "t" } }
    parseCosmosMentions := fun body => (body, []) }

/-- A transaction event carrying the action tag create-upvote and a stake
payload that decodes successfully. -/
def eventC2 : EventDataTx :=
  { Result := { Tags := [("action", "create-upvote")]
                DataAsArgument := .error "not an argument payload"
                DataAsStake := .ok { ArgumentID := 9, Creator := "C" } } }

/-- C2 fails on the code: for a create-upvote event the dispatch the claim
describes would forward the decoded stake to processUpvote, which emits an
agree-received notification — but processTxEvent, whose switch is commented
out in the source, emits nothing. -/
theorem processTxEvent_drops_upvote_notification :
    processTxEvent serviceC2 eventC2 = [] ∧
    processUpvote serviceC2 eventC2.Result.DataAsStake ≠ [] := by
  constructor
  · rfl
  · decide

/-- C2 as amended: processTxEvent performs no dispatch at all — for every
transaction event it emits no notifications; the case/switch over
create-argument, create-upvote and create-slash survives only as
commented-out code. -/
theorem processTxEvent_emits_nothing (s : Service) (evt : EventDataTx) :
    processTxEvent s evt = [] :=
  rfl

end Octopus
